import Mathlib

/-!
Verification of the style-resolution core of the `nox` rendering engine:
a shallow embedding of the CSS parser (`src/components/css/src/parser/mod.rs`),
the selector matcher (`src/components/style/src/selector_matching.rs`) and the
cascade / render-tree builder (`src/components/style/src/render_tree.rs`),
together with theorems settling the frozen claims about them.

Conventions of the embedding:
* Rust methods become functions taking and returning an explicit `Parser`
  (or other state) value.
* Every loop of the source that is not structurally terminating takes a
  `fuel : Nat` argument; a result of `none` means the fuel ran out (the
  source diverges or panics on that path), `some` is a genuine result.
* The `io::output_stream::OutputStream` collaborator is not part of the
  source excerpt; it is modelled from the spec (sections 2 and 6): a cursor
  over a fully materialized sequence supporting "peek without consuming"
  and "consume and advance", with exhaustion signalled by `none` (the
  parser itself substitutes the explicit `EOF` token via `unwrap_or`).
* The CSS `Token` type comes from the tokenizer collaborator and is
  modelled from the spec's data model (section 3), with the constructor
  names used by the parser source (`ParentheseOpen`, `PerservedToken`, ...).
-/

/-- Hash token flag, from the spec data model. -/
inductive HashType where
  | Id
  | Unrestricted
deriving DecidableEq, Repr

/-- CSS lexical token. Modelled from the spec: the tokenizer is an external
collaborator; the variants are the ones listed in the spec data model and
referenced by the parser source. -/
inductive Token where
  | Ident (s : String)
  | Function (s : String)
  | AtKeyword (s : String)
  | Hash (s : String) (t : HashType)
  | Delim (c : Char)
  | Number
  | Whitespace
  | Colon
  | Semicolon
  | Comma
  | BraceOpen
  | BraceClose
  | BracketOpen
  | BracketClose
  | ParentheseOpen
  | ParentheseClose
  | CDO
  | CDC
  | EOF
deriving DecidableEq, Repr

mutual
/-- `ComponentValue` from the parser source. -/
inductive ComponentValue where
  | PerservedToken (t : Token)
  | Function (f : CSSFunction)
  | SimpleBlock (b : SimpleBlock)
deriving Repr

/-- `Function` from the parser source (renamed: `Function` is a Mathlib
namespace). -/
inductive CSSFunction where
  | mk (name : String) (value : List ComponentValue)
deriving Repr

/-- `SimpleBlock` from the parser source. -/
inductive SimpleBlock where
  | mk (token : Token) (value : List ComponentValue)
deriving Repr
end

def CSSFunction.name : CSSFunction → String
  | .mk n _ => n

def CSSFunction.value : CSSFunction → List ComponentValue
  | .mk _ v => v

def CSSFunction.append_value : CSSFunction → ComponentValue → CSSFunction
  | .mk n v, cv => .mk n (v ++ [cv])

def SimpleBlock.token : SimpleBlock → Token
  | .mk t _ => t

def SimpleBlock.value : SimpleBlock → List ComponentValue
  | .mk _ v => v

def SimpleBlock.append_value : SimpleBlock → ComponentValue → SimpleBlock
  | .mk t v, cv => .mk t (v ++ [cv])

/-- `QualifiedRule` from the parser source. -/
structure QualifiedRule where
  prelude : List ComponentValue
  block : Option SimpleBlock
deriving Repr

def QualifiedRule.new : QualifiedRule := { prelude := [], block := none }

def QualifiedRule.set_block (q : QualifiedRule) (b : SimpleBlock) : QualifiedRule :=
  { q with block := some b }

def QualifiedRule.append_prelude (q : QualifiedRule) (v : ComponentValue) : QualifiedRule :=
  { q with prelude := q.prelude ++ [v] }

/-- `AtRule` from the parser source. -/
structure AtRule where
  name : String
  prelude : List ComponentValue
  block : Option SimpleBlock
deriving Repr

def AtRule.new (name : String) : AtRule := { name := name, prelude := [], block := none }

def AtRule.set_block (a : AtRule) (b : SimpleBlock) : AtRule :=
  { a with block := some b }

def AtRule.append_prelude (a : AtRule) (v : ComponentValue) : AtRule :=
  { a with prelude := a.prelude ++ [v] }

/-- `Rule` from the parser source. -/
inductive Rule where
  | QualifiedRule (q : QualifiedRule)
  | AtRule (a : AtRule)
deriving Repr

/-- `Declaration` from the parser source. -/
structure Declaration where
  name : String
  value : List ComponentValue
  important : Bool
deriving Repr

/-- `DeclarationOrAtRule` from the parser source. -/
inductive DeclarationOrAtRule where
  | Declaration (d : Declaration)
  | AtRule (a : AtRule)
deriving Repr

def Declaration.new (name : String) : Declaration :=
  { name := name, value := [], important := false }

def Declaration.append_value (d : Declaration) (v : ComponentValue) : Declaration :=
  { d with value := d.value ++ [v] }

/-- `Declaration::last_values`: the last `len` component values, scanning from
the end (`iter().rev().take(len)`), so the result lists the last value first. -/
def Declaration.last_values (d : Declaration) (len : Nat) : List ComponentValue :=
  d.value.reverse.take len

/-- Helper for `Declaration::last_token`: enumerate the reversed value list and
return the first preserved token together with its reversed-enumeration index. -/
def last_token_go : Nat → List ComponentValue → Option (Nat × Token)
  | _, [] => none
  | index, .PerservedToken token :: _ => some (index, token)
  | index, _ :: rest => last_token_go (index + 1) rest

/-- `Declaration::last_token`: the last preserved token of the value, paired
with its index in the reversed enumeration (`iter().rev().enumerate()`). -/
def Declaration.last_token (d : Declaration) : Option (Nat × Token) :=
  last_token_go 0 d.value.reverse

/-- `Vec::remove(index)`: drop the element at a forward index. -/
def removeAt : List ComponentValue → Nat → List ComponentValue
  | [], _ => []
  | _ :: xs, 0 => xs
  | x :: xs, n + 1 => x :: removeAt xs n

/-- `Declaration::remove`. -/
def Declaration.remove (d : Declaration) (index : Nat) : Declaration :=
  { d with value := removeAt d.value index }

/-- `Declaration::pop_last`: pop the last element `len` times. -/
def Declaration.pop_last (d : Declaration) : Nat → Declaration
  | 0 => d
  | n + 1 => Declaration.pop_last { d with value := d.value.dropLast } n

/-- `Declaration::important`. -/
def Declaration.set_important (d : Declaration) : Declaration :=
  { d with important := true }

/-- `str::eq_ignore_ascii_case` (Lean's `Char.toLower` only folds ASCII). -/
def eq_ignore_ascii_case (a b : String) : Bool :=
  a.toLower == b.toLower

theorem last_token_go_lt {k : Nat} {l : List ComponentValue} {i : Nat} {t : Token}
    (h : last_token_go k l = some (i, t)) : i < k + l.length := by
  induction l generalizing k with
  | nil => simp [last_token_go] at h
  | cons x xs ih =>
    cases x with
    | PerservedToken tk =>
      simp only [last_token_go, Option.some.injEq, Prod.mk.injEq] at h
      obtain ⟨h1, h2⟩ := h
      subst h1
      simp only [List.length_cons]
      omega
    | Function f =>
      simp only [last_token_go] at h
      have := ih h
      simp only [List.length_cons]
      omega
    | SimpleBlock b =>
      simp only [last_token_go] at h
      have := ih h
      simp only [List.length_cons]
      omega

theorem Declaration.last_token_lt {d : Declaration} {i : Nat} {t : Token}
    (h : d.last_token = some (i, t)) : i < d.value.length := by
  have := last_token_go_lt h
  simpa using this

theorem removeAt_length_lt {l : List ComponentValue} {i : Nat} (h : i < l.length) :
    (removeAt l i).length < l.length := by
  induction l generalizing i with
  | nil => simp at h
  | cons x xs ih =>
    cases i with
    | zero => simp [removeAt]
    | succ n =>
      simp only [removeAt, List.length_cons]
      have : n < xs.length := by simpa using h
      have := ih this
      omega

/-- One bounded pass of the trailing-whitespace strip loop. -/
def strip_whitespace_go : Nat → Declaration → Declaration
  | 0, d => d
  | fuel + 1, d =>
    match d.last_token with
    | some (index, .Whitespace) => strip_whitespace_go fuel (d.remove index)
    | _ => d

/-- The trailing-whitespace strip loop of `consume_a_declaration` /
`consume_a_declaration_from_list`:
`while let Some((index, Token::Whitespace)) = declaration.last_token() { declaration.remove(index); }`.
Note the source removes at the index obtained from the reversed enumeration.
Each iteration removes one element (`Declaration.last_token_lt` and
`removeAt_length_lt` above bound the index), so a fuel of
`d.value.length + 1` always reaches the loop's own exit condition. -/
def strip_whitespace_loop (d : Declaration) : Declaration :=
  strip_whitespace_go (d.value.length + 1) d

/-- The `!important` detection block of `consume_a_declaration` /
`consume_a_declaration_from_list`: look at `last_values 2` (last value first)
and require `[0]` to be the `!` delimiter and `[1]` the `important` ident. -/
def important_check (d : Declaration) : Declaration :=
  match d.last_values 2 with
  | [.PerservedToken (.Delim '!'), .PerservedToken (.Ident data)] =>
    if eq_ignore_ascii_case data "important" then
      (d.pop_last 2).set_important
    else d
  | _ => d

/-- The token source collaborator. Modelled from the spec (sections 2 and 6,
the `io` crate is not part of the source excerpt): a cursor supporting
"peek without consuming" and "consume and advance"; an exhausted cursor
yields `none`. -/
structure OutputStream (α : Type) where
  items : List α
deriving Repr

def OutputStream.new {α : Type} (items : List α) : OutputStream α := ⟨items⟩

/-- Consume and advance. -/
def OutputStream.next {α : Type} : OutputStream α → Option α × OutputStream α
  | ⟨[]⟩ => (none, ⟨[]⟩)
  | ⟨x :: xs⟩ => (some x, ⟨xs⟩)

/-- Peek without consuming. -/
def OutputStream.peek {α : Type} : OutputStream α → Option α
  | ⟨[]⟩ => none
  | ⟨x :: _⟩ => some x

/-- The CSS `Parser` state, from the parser source. -/
structure Parser where
  tokens : OutputStream Token
  top_level : Bool
  reconsume : Bool
  current_token : Option Token
deriving Repr

/-- `Parser::new`. -/
def Parser.new (tokens : List Token) : Parser :=
  { tokens := OutputStream.new tokens, top_level := false, reconsume := false,
    current_token := none }

/-- `Parser::consume_next_token`: on reconsume, re-deliver the current token;
otherwise advance the stream (`unwrap_or(&Token::EOF)` turns exhaustion into
`EOF`) and record the token as current. The source unwraps `current_token`;
every call site sets it before raising the reconsume flag, so the `getD`
default is never the delivered value on a reachable path. -/
def consume_next_token (p : Parser) : Token × Parser :=
  if p.reconsume then
    (p.current_token.getD .EOF, { p with reconsume := false })
  else
    let (t, s) := p.tokens.next
    let token := t.getD .EOF
    (token, { p with tokens := s, current_token := some token })

/-- `Parser::peek_next_token`. Transcribed from the source as written: when
the reconsume flag is clear it calls `self.tokens.next()` (not
`self.tokens.peek()`), so it consumes a token from the underlying stream
without recording it as the current token. -/
def peek_next_token (p : Parser) : Token × Parser :=
  if p.reconsume then
    (p.current_token.getD .EOF, p)
  else
    let (t, s) := p.tokens.next
    (t.getD .EOF, { p with tokens := s })

/-- `Parser::reconsume`: mark the current token for re-delivery. -/
def set_reconsume (p : Parser) : Parser :=
  { p with reconsume := true }

/-!
The recursive consumption routines. `consume_a_component_value`,
`consume_a_simple_block` and `consume_a_function` are mutually recursive in
the source; every loop is fuelled, and nested calls pass the decremented
fuel.
-/

mutual
/-- `Parser::consume_a_component_value`. -/
def consume_a_component_value : Nat → Parser → Option (ComponentValue × Parser)
  | 0, _ => none
  | fuel + 1, p =>
    let (_, p) := consume_next_token p
    match p.current_token.getD .EOF with
    | .BraceOpen | .BracketOpen | .ParentheseOpen =>
      match consume_a_simple_block fuel p with
      | none => none
      | some (b, p) => some (.SimpleBlock b, p)
    | .Function _ =>
      match consume_a_function fuel p with
      | none => none
      | some (f, p) => some (.Function f, p)
    | t => some (.PerservedToken t, p)

/-- `Parser::consume_a_simple_block`, combined with `Parser::ending_token`
(the `panic!("Can't get ending token")` arm is the final `none`). -/
def consume_a_simple_block : Nat → Parser → Option (SimpleBlock × Parser)
  | 0, _ => none
  | fuel + 1, p =>
    match p.current_token with
    | some .BracketOpen => simple_block_loop fuel p .BracketClose (.mk .BracketOpen [])
    | some .BraceOpen => simple_block_loop fuel p .BraceClose (.mk .BraceOpen [])
    | some .ParentheseOpen => simple_block_loop fuel p .ParentheseClose (.mk .ParentheseOpen [])
    | _ => none

/-- The loop of `consume_a_simple_block`. -/
def simple_block_loop : Nat → Parser → Token → SimpleBlock → Option (SimpleBlock × Parser)
  | 0, _, _, _ => none
  | fuel + 1, p, ending_token, simple_block =>
    let (next_token, p) := consume_next_token p
    if next_token == ending_token then
      some (simple_block, p)
    else
      match next_token with
      | .EOF => some (simple_block, p)
      | _ =>
        let p := set_reconsume p
        match consume_a_component_value fuel p with
        | none => none
        | some (v, p) => simple_block_loop fuel p ending_token (simple_block.append_value v)

/-- `Parser::consume_a_function` (the non-function `panic!` arm is `none`). -/
def consume_a_function : Nat → Parser → Option (CSSFunction × Parser)
  | 0, _ => none
  | fuel + 1, p =>
    match p.current_token with
    | some (.Function function_name) => function_loop fuel p (.mk function_name [])
    | _ => none

/-- The loop of `consume_a_function`. -/
def function_loop : Nat → Parser → CSSFunction → Option (CSSFunction × Parser)
  | 0, _, _ => none
  | fuel + 1, p, function =>
    let (next_token, p) := consume_next_token p
    match next_token with
    | .ParentheseClose => some (function, p)
    | .EOF => some (function, p)
    | _ =>
      let p := set_reconsume p
      match consume_a_component_value fuel p with
      | none => none
      | some (v, p) => function_loop fuel p (function.append_value v)
end

/-- `Parser::consume_while_next_token_is`. -/
def consume_while_next_token_is : Nat → Parser → Token → Option Parser
  | 0, _, _ => none
  | fuel + 1, p, token =>
    let (t, p) := peek_next_token p
    if t == token then
      let (_, p) := consume_next_token p
      consume_while_next_token_is fuel p token
    else
      some p

/-- The loop of `Parser::consume_a_qualified_rule`, with the rule built so
far as accumulator. -/
def qualified_rule_loop : Nat → Parser → QualifiedRule → Option (Option QualifiedRule × Parser)
  | 0, _, _ => none
  | fuel + 1, p, qualified_rule =>
    let (next_token, p) := consume_next_token p
    match next_token with
    | .EOF => some (none, p)
    | .BraceOpen =>
      match consume_a_simple_block fuel p with
      | none => none
      | some (b, p) => some (some (qualified_rule.set_block b), p)
    | _ =>
      let p := set_reconsume p
      match consume_a_component_value fuel p with
      | none => none
      | some (v, p) => qualified_rule_loop fuel p (qualified_rule.append_prelude v)

/-- `Parser::consume_a_qualified_rule`. -/
def consume_a_qualified_rule (fuel : Nat) (p : Parser) : Option (Option QualifiedRule × Parser) :=
  qualified_rule_loop fuel p QualifiedRule.new

/-- The loop of `Parser::consume_an_at_rule`. -/
def at_rule_loop : Nat → Parser → AtRule → Option (AtRule × Parser)
  | 0, _, _ => none
  | fuel + 1, p, at_rule =>
    let (next_token, p) := consume_next_token p
    match next_token with
    | .Semicolon => some (at_rule, p)
    | .EOF => some (at_rule, p)
    | .BraceOpen =>
      match consume_a_simple_block fuel p with
      | none => none
      | some (b, p) => some (at_rule.set_block b, p)
    | _ =>
      let p := set_reconsume p
      match consume_a_component_value fuel p with
      | none => none
      | some (v, p) => at_rule_loop fuel p (at_rule.append_prelude v)

/-- `Parser::consume_an_at_rule` (the non-at-keyword `panic!` arm is `none`). -/
def consume_an_at_rule (fuel : Nat) (p : Parser) : Option (AtRule × Parser) :=
  let (_, p) := consume_next_token p
  match p.current_token with
  | some (.AtKeyword keyword_name) => at_rule_loop fuel p (AtRule.new keyword_name)
  | _ => none

/-- The loop of `Parser::consume_a_list_of_rules`. -/
def list_of_rules_loop : Nat → Parser → List Rule → Option (List Rule × Parser)
  | 0, _, _ => none
  | fuel + 1, p, rules =>
    let (next_token, p) := consume_next_token p
    match next_token with
    | .Whitespace => list_of_rules_loop fuel p rules
    | .EOF => some (rules, p)
    | .CDO | .CDC =>
      if p.top_level then
        list_of_rules_loop fuel p rules
      else
        let p := set_reconsume p
        match consume_a_qualified_rule fuel p with
        | none => none
        | some (some rule, p) => list_of_rules_loop fuel p (rules ++ [.QualifiedRule rule])
        | some (none, p) => list_of_rules_loop fuel p rules
    | .AtKeyword _ =>
      let p := set_reconsume p
      match consume_an_at_rule fuel p with
      | none => none
      | some (at_rule, p) => list_of_rules_loop fuel p (rules ++ [.AtRule at_rule])
    | _ =>
      let p := set_reconsume p
      match consume_a_qualified_rule fuel p with
      | none => none
      | some (some rule, p) => list_of_rules_loop fuel p (rules ++ [.QualifiedRule rule])
      | some (none, p) => list_of_rules_loop fuel p rules

/-- `Parser::consume_a_list_of_rules`. -/
def consume_a_list_of_rules (fuel : Nat) (p : Parser) : Option (List Rule × Parser) :=
  list_of_rules_loop fuel p []

/-- Helper for the whitespace-skipping loops of
`consume_a_declaration_from_list`, on the underlying item list. -/
def skip_whitespace_list : List ComponentValue → List ComponentValue
  | .PerservedToken .Whitespace :: rest => skip_whitespace_list rest
  | l => l

/-- `while let Some(PT(Whitespace)) = tokens.peek() { tokens.next(); }`
on the component-value stream of `consume_a_declaration_from_list`. -/
def skip_whitespace_stream (s : OutputStream ComponentValue) : OutputStream ComponentValue :=
  ⟨skip_whitespace_list s.items⟩

/-- The value loop of `consume_a_declaration_from_list`. Transcribed from the
source as written: the loop guard peeks the local component-value stream
`tokens` (panicking via `unwrap` when it is exhausted, the first `none` arm)
but never advances it, while each iteration appends
`self.consume_a_component_value()`, consumed from the parser's own token
stream. -/
def from_list_value_loop : Nat → Parser → OutputStream ComponentValue → Declaration →
    Option (Declaration × Parser)
  | 0, _, _, _ => none
  | fuel + 1, p, tokens, declaration =>
    match tokens.peek with
    | none => none
    | some (.PerservedToken .EOF) => some (declaration, p)
    | some _ =>
      match consume_a_component_value fuel p with
      | none => none
      | some (v, p) => from_list_value_loop fuel p tokens (declaration.append_value v)

/-- `Parser::consume_a_declaration_from_list`. The `unwrap` panics on an
exhausted stream and the `panic!` on a non-ident first value are `none`. -/
def consume_a_declaration_from_list (fuel : Nat) (p : Parser)
    (tokens : OutputStream ComponentValue) : Option (Option Declaration × Parser) :=
  match tokens.next with
  | (none, _) => none
  | (some next_token, tokens) =>
    match next_token with
    | .PerservedToken (.Ident declaration_name) =>
      let declaration := Declaration.new declaration_name
      let tokens := skip_whitespace_stream tokens
      match tokens.peek with
      | none => none
      | some (.PerservedToken .Colon) =>
        let (_, tokens) := tokens.next
        let tokens := skip_whitespace_stream tokens
        match from_list_value_loop fuel p tokens declaration with
        | none => none
        | some (declaration, p) =>
          some (some (strip_whitespace_loop (important_check declaration)), p)
      | some _ => some (none, p)
    | _ => none

/-- The value loop of `consume_a_declaration`. -/
def declaration_value_loop : Nat → Parser → Declaration → Option (Declaration × Parser)
  | 0, _, _ => none
  | fuel + 1, p, declaration =>
    let (token, p) := peek_next_token p
    match token with
    | .EOF => some (declaration, p)
    | _ =>
      match consume_a_component_value fuel p with
      | none => none
      | some (v, p) => declaration_value_loop fuel p (declaration.append_value v)

/-- `Parser::consume_a_declaration` (the non-ident `panic!` arm is `none`). -/
def consume_a_declaration (fuel : Nat) (p : Parser) : Option (Option Declaration × Parser) :=
  let (next_token, p) := consume_next_token p
  match next_token with
  | .Ident declaration_name =>
    let declaration := Declaration.new declaration_name
    match consume_while_next_token_is fuel p .Whitespace with
    | none => none
    | some p =>
      let (t, p) := peek_next_token p
      match t with
      | .Colon =>
        let (_, p) := consume_next_token p
        match consume_while_next_token_is fuel p .Whitespace with
        | none => none
        | some p =>
          match declaration_value_loop fuel p declaration with
          | none => none
          | some (declaration, p) =>
            some (some (strip_whitespace_loop (important_check declaration)), p)
      | _ => some (none, p)
  | _ => none

/-- The token-collection loop of the `Ident` arm of
`consume_a_list_of_declarations`. -/
def decl_tmp_loop : Nat → Parser → List ComponentValue → Option (List ComponentValue × Parser)
  | 0, _, _ => none
  | fuel + 1, p, tmp =>
    let (t, p) := peek_next_token p
    match t with
    | .Semicolon | .EOF => some (tmp, p)
    | _ =>
      match consume_a_component_value fuel p with
      | none => none
      | some (v, p) => decl_tmp_loop fuel p (tmp ++ [v])

/-- The resynchronisation loop of the catch-all arm of
`consume_a_list_of_declarations` (component values are thrown away). -/
def resync_loop : Nat → Parser → Option Parser
  | 0, _ => none
  | fuel + 1, p =>
    let (t, p) := peek_next_token p
    match t with
    | .Semicolon | .EOF => some p
    | _ =>
      match consume_a_component_value fuel p with
      | none => none
      | some (_, p) => resync_loop fuel p

/-- The loop of `Parser::consume_a_list_of_declarations`. -/
def list_of_declarations_loop : Nat → Parser → List DeclarationOrAtRule →
    Option (List DeclarationOrAtRule × Parser)
  | 0, _, _ => none
  | fuel + 1, p, result =>
    let (next_token, p) := consume_next_token p
    match next_token with
    | .Whitespace | .Semicolon => list_of_declarations_loop fuel p result
    | .EOF => some (result, p)
    | .AtKeyword _ =>
      let p := set_reconsume p
      match consume_an_at_rule fuel p with
      | none => none
      | some (rule, p) => list_of_declarations_loop fuel p (result ++ [.AtRule rule])
    | .Ident _ =>
      let tmp := [ComponentValue.PerservedToken (p.current_token.getD .EOF)]
      match decl_tmp_loop fuel p tmp with
      | none => none
      | some (tmp, p) =>
        match consume_a_declaration_from_list fuel p (OutputStream.new tmp) with
        | none => none
        | some (some declaration, p) =>
          list_of_declarations_loop fuel p (result ++ [.Declaration declaration])
        | some (none, p) => list_of_declarations_loop fuel p result
    | _ =>
      let p := set_reconsume p
      match resync_loop fuel p with
      | none => none
      | some p => list_of_declarations_loop fuel p result

/-- `Parser::consume_a_list_of_declarations`. -/
def consume_a_list_of_declarations (fuel : Nat) (p : Parser) :
    Option (List DeclarationOrAtRule × Parser) :=
  list_of_declarations_loop fuel p []

/-- `Parser::parse_a_list_of_declarations`. -/
def parse_a_list_of_declarations (fuel : Nat) (p : Parser) :
    Option (List DeclarationOrAtRule × Parser) :=
  consume_a_list_of_declarations fuel p

/-- The loop of `Parser::parse_a_comma_separated_list_of_component_values`,
with the current group and the groups collected so far as accumulators. -/
def comma_loop : Nat → Parser → List ComponentValue → List (List ComponentValue) →
    Option (List (List ComponentValue) × Parser)
  | 0, _, _, _ => none
  | fuel + 1, p, values, return_values =>
    match consume_a_component_value fuel p with
    | none => none
    | some (value, p) =>
      match value with
      | .PerservedToken .EOF => some (return_values ++ [values], p)
      | .PerservedToken .Comma => comma_loop fuel p [] (return_values ++ [values])
      | _ => comma_loop fuel p (values ++ [value]) return_values

/-- `Parser::parse_a_comma_separated_list_of_component_values`. -/
def parse_a_comma_separated_list_of_component_values (fuel : Nat) (p : Parser) :
    Option (List (List ComponentValue) × Parser) :=
  comma_loop fuel p [] []

/-- The number of top-level comma tokens delivered before `EOF`. Modelled from
the spec wording of the comma-separated entry point ("split on top-level
commas"): it consumes component values exactly as the entry point does and
counts the commas delivered at this nesting level. -/
def comma_count : Nat → Parser → Option (Nat × Parser)
  | 0, _ => none
  | fuel + 1, p =>
    match consume_a_component_value fuel p with
    | none => none
    | some (value, p) =>
      match value with
      | .PerservedToken .EOF => some (0, p)
      | .PerservedToken .Comma =>
        match comma_count fuel p with
        | none => none
        | some (n, p) => some (n + 1, p)
      | _ => comma_count fuel p

/-!
Selector matcher (`src/components/style/src/selector_matching.rs`).

The DOM collaborator is modelled from the spec (section 6): node identity,
parent / previous-sibling navigation and an element view (tag name, id,
class list). A DOM is a table of node records addressed by index.

The selector data types (`css::selector::structs`) are not part of the
source excerpt and are modelled from the spec data model (section 3): a
selector is an ordered sequence of (simple-selector-sequence, optional
combinator) pairs, with accessors `values`, `selector_type`, `value`.
-/

/-- Element view of a DOM node. Modelled from the spec. -/
structure ElementData where
  tag_name : String
  id : String
  class_list : List String
deriving DecidableEq, Repr

/-- One DOM node record. Modelled from the spec's DOM collaborator. -/
structure DomNodeRec where
  element : Option ElementData
  parent : Option Nat
  prev_sibling : Option Nat
deriving DecidableEq, Repr

/-- A DOM: node records addressed by index. -/
def Dom : Type := List DomNodeRec

/-- `get_parent` from the matcher source (via the DOM collaborator). -/
def get_parent (dom : Dom) (el : Nat) : Option Nat :=
  (List.get? dom el).bind (fun n => n.parent)

/-- `get_prev_sibling` from the matcher source (via the DOM collaborator). -/
def get_prev_sibling (dom : Dom) (el : Nat) : Option Nat :=
  (List.get? dom el).bind (fun n => n.prev_sibling)

/-- `SimpleSelectorType`; the variants used by the matcher plus a stand-in
for the remaining ones (the matcher's catch-all arm). -/
inductive SimpleSelectorType where
  | Universal
  | Type
  | Class
  | ID
  | PseudoClass
deriving DecidableEq, Repr

/-- `SimpleSelector`. Modelled from the spec data model. -/
structure SimpleSelector where
  selector_type : SimpleSelectorType
  value : Option String
deriving DecidableEq, Repr

/-- `SimpleSelectorSequence`. -/
structure SimpleSelectorSequence where
  values : List SimpleSelector
deriving DecidableEq, Repr

/-- `Combinator`. -/
inductive Combinator where
  | Child
  | Descendant
  | NextSibling
  | SubsequentSibling
deriving DecidableEq, Repr

/-- `Selector`: pairs in source order; the matcher iterates them reversed. -/
structure Selector where
  values : List (SimpleSelectorSequence × Option Combinator)
deriving DecidableEq, Repr

/-- `is_match_simple_selector` from the matcher source. -/
def is_match_simple_selector (element : ElementData) (selector : SimpleSelector) : Bool :=
  match selector.selector_type with
  | .Universal => true
  | .Type =>
    match selector.value with
    | some type_name => element.tag_name == type_name
    | none => false
  | .Class =>
    match selector.value with
    | some type_name => element.class_list.contains type_name
    | none => false
  | .ID =>
    match selector.value with
    | some id => element.id == id
    | none => false
  | _ => false

/-- `is_match_simple_selector_seq`; `none` is the
`expect("Node is not an element")` panic on a non-element node. -/
def is_match_simple_selector_seq (dom : Dom) (el : Nat)
    (sequence : SimpleSelectorSequence) : Option Bool :=
  match (List.get? dom el).bind (fun n => n.element) with
  | some element => some (sequence.values.all (fun s => is_match_simple_selector element s))
  | none => none

/-- Outcome of one combinator step of the matcher's `for` loop:
either the whole function returns `false`, or the loop continues with a new
candidate; `panic` is the non-element precondition violation and `fuelOut`
marks a walk that never terminates. -/
inductive WalkRes where
  | noMatch
  | newCand (cand : Option Nat)
  | panic
  | fuelOut
deriving DecidableEq, Repr

/-- The `Descendant` walk, transcribed from the source as written: each
iteration recomputes `get_parent(&el)` for the same `el` (the loop never
advances the walk), breaks when that parent satisfies the sequence, and
returns no-match when there is no parent. -/
def descendant_walk : Nat → Dom → Nat → SimpleSelectorSequence → WalkRes
  | 0, _, _, _ => .fuelOut
  | fuel + 1, dom, el, selector_seq =>
    match get_parent dom el with
    | some p =>
      match is_match_simple_selector_seq dom p selector_seq with
      | some true => .newCand (some p)
      | some false => descendant_walk fuel dom el selector_seq
      | none => .panic
    | none => .noMatch

/-- The `SubsequentSibling` walk, transcribed from the source as written
(`get_prev_sibling(&el)` of the same `el` on every iteration). -/
def subsequent_sibling_walk : Nat → Dom → Nat → SimpleSelectorSequence → WalkRes
  | 0, _, _, _ => .fuelOut
  | fuel + 1, dom, el, selector_seq =>
    match get_prev_sibling dom el with
    | some s =>
      match is_match_simple_selector_seq dom s selector_seq with
      | some true => .newCand (some s)
      | some false => subsequent_sibling_walk fuel dom el selector_seq
      | none => .panic
    | none => .noMatch

/-- One iteration body of the matcher's `for` loop: dispatch on the
combinator of the current pair. -/
def combinator_step (fuel : Nat) (dom : Dom) (el : Nat)
    (selector_seq : SimpleSelectorSequence) (combinator : Option Combinator) : WalkRes :=
  match combinator with
  | some .Child =>
    match get_parent dom el with
    | some p =>
      match is_match_simple_selector_seq dom p selector_seq with
      | some true => .newCand (some p)
      | some false => .noMatch
      | none => .panic
    | none => .newCand none
  | some .Descendant => descendant_walk fuel dom el selector_seq
  | some .NextSibling =>
    match get_prev_sibling dom el with
    | some s =>
      match is_match_simple_selector_seq dom s selector_seq with
      | some true => .newCand (some s)
      | some false => .noMatch
      | none => .panic
    | none => .newCand none
  | some .SubsequentSibling => subsequent_sibling_walk fuel dom el selector_seq
  | none =>
    match is_match_simple_selector_seq dom el selector_seq with
    | some true => .newCand (some el)
    | some false => .noMatch
    | none => .panic

/-- Result of the matcher. -/
inductive MatchRes where
  | ok (b : Bool)
  | panic
  | fuelOut
deriving DecidableEq, Repr

/-- The matcher's `for` loop over the reversed pair list, with the current
candidate (`current_element`). -/
def match_selector_loop (fuel : Nat) (dom : Dom) :
    List (SimpleSelectorSequence × Option Combinator) → Option Nat → MatchRes
  | [], _ => .ok true
  | (selector_seq, combinator) :: rest, current_element =>
    match current_element with
    | some el =>
      match combinator_step fuel dom el selector_seq combinator with
      | .newCand cand => match_selector_loop fuel dom rest cand
      | .noMatch => .ok false
      | .panic => .panic
      | .fuelOut => .fuelOut
    | none => .ok false

/-- `is_match_selector` from the matcher source. -/
def is_match_selector (fuel : Nat) (dom : Dom) (element : Nat) (selector : Selector) : MatchRes :=
  match_selector_loop fuel dom selector.values.reverse (some element)

/-!
Cascade engine and render-tree builder
(`src/components/style/src/render_tree.rs`).

`Property`, `Value`, the `INHERITABLES` set, `Value::initial` and the
per-property `compute` step live in `value_processing.rs` / `values/*`,
which are not part of the source excerpt; they are modelled from the spec
(sections 3, 4.3 and 8): a small closed property enumeration
(background-color, color, display — the set used by the neighbouring
`style_tree.rs`), color is inheritable while display and background-color
are not, each property has a fixed initial value, and the computed-value
step is the identity. `apply_styles` is likewise external and is passed to
the builder as a function parameter.
-/

/-- CSS display keyword (`values/display.rs`, modelled from the spec). -/
inductive Display where
  | Inline
  | Block
  | None
deriving DecidableEq, Repr

/-- CSS color value (`values/color.rs`, modelled from the spec). -/
inductive Color where
  | RGBA (r g b a : Nat)
deriving DecidableEq, Repr

/-- CSS property identifiers. Modelled from the spec (closed enumeration). -/
inductive Property where
  | BackgroundColor
  | Color
  | Display
deriving DecidableEq, Repr

/-- CSS property values. Modelled from the spec (one value domain per
property kind). -/
inductive Value where
  | Color (c : Color)
  | Display (d : Display)
deriving DecidableEq, Repr

/-- `Property::iter()` (strum): every variant in declaration order. -/
def Property.iter : List Property := [.BackgroundColor, .Color, .Display]

/-- `INHERITABLES`. Modelled from the spec: color is inheritable, display
and background-color are not. -/
def INHERITABLES : List Property := [.Color]

/-- `Value::initial`. Modelled from the spec: each property has a fixed
defined initial value. -/
def Value.initial : Property → Value
  | .BackgroundColor => .Color (.RGBA 255 255 255 255)
  | .Color => .Color (.RGBA 0 0 0 255)
  | .Display => .Display .Inline

/-- The specified-properties map fed in by rule matching:
`Properties = HashMap<Property, Option<Value>>`, as an association list. -/
def Properties : Type := List (Property × Option Value)

/-- `HashMap::get` on a specified-properties map. -/
def Properties.get (props : Properties) (property : Property) : Option (Option Value) :=
  (props.find? (fun pv => pv.1 == property)).map (fun pv => pv.2)

/-- `HashMap::get` on a computed map. -/
def computed_get (props : List (Property × Value)) (property : Property) : Option Value :=
  (props.find? (fun pv => pv.1 == property)).map (fun pv => pv.2)

/-- The part of a `RenderNode` visible to inheritance lookups: its computed
properties and its weak parent back-reference. The outer `Option` is the
`parent_render_node` field being present, the inner `Option` is the result
of upgrading the weak reference (`none` = the parent was dropped). -/
inductive RTNode where
  | mk (properties : List (Property × Value)) (parent_render_node : Option (Option RTNode))

/-- `RenderNode::get_style`: the node's own computed entry, else (for an
inheritable property) the upgraded parent's `get_style`, else the initial
value. -/
def get_style : RTNode → Property → Value
  | .mk properties parent_render_node, property =>
    match computed_get properties property with
    | some value => value
    | none =>
      if INHERITABLES.contains property then
        match parent_render_node with
        | some (some p) => get_style p property
        | _ => Value.initial property
      else
        Value.initial property

/-- `ComputeContext` from `value_processing.rs` (modelled from the spec):
the snapshot of specified values a computation step may consult. -/
structure ComputeContext where
  parent : Option (Option RTNode)
  properties : List (Property × Value)

/-- The per-property computed-value step. Modelled from the spec: identity
for every property in this system. -/
def compute (_property : Property) (value : Value) (_context : ComputeContext) : Value :=
  value

/-- The specified value of one property (the body of the `Property::iter`
map of `compute_styles`): the explicit value when the rule-matching phase
supplied one, else the upgraded parent's computed value for an inheritable
property, else the initial value. -/
def specified_value (properties : Properties) (parent : Option (Option RTNode))
    (property : Property) : Value :=
  match Properties.get properties property with
  | some (some v) => v
  | _ =>
    if INHERITABLES.contains property then
      match parent with
      | some (some p) => get_style p property
      | _ => Value.initial property
    else
      Value.initial property

/-- `compute_styles`: specified-value resolution over every known property,
followed by the computed-value pass over the snapshot. -/
def compute_styles (properties : Properties) (parent : Option (Option RTNode)) :
    List (Property × Value) :=
  let specified_values := Property.iter.map (fun property =>
    (property, specified_value properties parent property))
  specified_values.map (fun pv =>
    (pv.1, compute pv.1 pv.2 { parent := parent, properties := specified_values }))

/-- A DOM subtree for the render-tree builder: the node kinds and accessors
the builder uses (text test, element view with tag name, child list). -/
inductive DomNode where
  | text (data : String)
  | element (tag_name : String) (children : List DomNode)

/-- `child_nodes`. -/
def DomNode.child_nodes : DomNode → List DomNode
  | .text _ => []
  | .element _ children => children

/-- `as_element().tag_name() == "head"`: the head filter's condition. -/
def DomNode.is_head : DomNode → Bool
  | .element tag_name _ => tag_name == "head"
  | .text _ => false

/-- `node.is::<dom::text::Text>()`. -/
def DomNode.is_text : DomNode → Bool
  | .text _ => true
  | .element _ _ => false

/-- An owned render-tree node: originating DOM node, computed properties,
children in DOM order. -/
inductive RenderTree where
  | mk (node : DomNode) (properties : List (Property × Value)) (children : List RenderTree)

mutual
/-- Size measure for the builder's recursion. -/
def DomNode.size : DomNode → Nat
  | .text _ => 1
  | .element _ children => 1 + DomNode.sizeList children

/-- Size measure of a child list. -/
def DomNode.sizeList : List DomNode → Nat
  | [] => 0
  | c :: rest => DomNode.size c + DomNode.sizeList rest
end

theorem DomNode.size_pos (node : DomNode) : 0 < node.size := by
  cases node <;> simp [DomNode.size]

theorem DomNode.sizeList_child_nodes_lt (node : DomNode) :
    DomNode.sizeList node.child_nodes < node.size := by
  cases node with
  | text data => simp [DomNode.child_nodes, DomNode.size, DomNode.sizeList]
  | element tag_name children => simp [DomNode.child_nodes, DomNode.size]

mutual
/-- `build_render_tree`. `apply_styles` lives in `value_processing.rs`
(external to the source excerpt) and is passed in as the function
`A`; everything else is transcribed from the builder source: text nodes get
an empty specified map, the head filter and the display:none filter run
before the node is constructed, and the children are the non-empty results
of recursing into the DOM children with a weak reference to the new node. -/
def build_render_tree (A : DomNode → Properties) (node : DomNode)
    (parent : Option (Option RTNode)) : Option RenderTree :=
  let properties : Properties := if node.is_text then [] else A node
  if node.is_head then
    none
  else if Properties.get properties .Display == some (some (.Display .None)) then
    none
  else
    let computed := compute_styles properties parent
    some (.mk node computed
      (build_render_children A node.child_nodes (some (some (.mk computed parent)))))
termination_by 2 * node.size
decreasing_by
  have := DomNode.sizeList_child_nodes_lt node
  omega

/-- The `filter_map` over the DOM children: collect the non-empty recursive
results in DOM order. -/
def build_render_children (A : DomNode → Properties) (children : List DomNode)
    (parent : Option (Option RTNode)) : List RenderTree :=
  match children with
  | [] => []
  | c :: rest =>
    match build_render_tree A c parent with
    | none => build_render_children A rest parent
    | some r => r :: build_render_children A rest parent
termination_by 2 * DomNode.sizeList children + 1
decreasing_by
  all_goals simp only [DomNode.sizeList]
  all_goals have := DomNode.size_pos c
  all_goals omega
end

/-!
Claim inputs and theorems.
-/

/-- Token stream of the declaration `color: red !important`. -/
def c1_important_tokens : List Token :=
  [.Ident "color", .Colon, .Whitespace, .Ident "red", .Whitespace, .Delim '!',
   .Ident "important"]

/-- Token stream of the declaration `color: red !importantx`. -/
def c1_importantx_tokens : List Token :=
  [.Ident "color", .Colon, .Whitespace, .Ident "red", .Whitespace, .Delim '!',
   .Ident "importantx"]

/-- C1: the claim says `color: red !important` yields a Declaration with
`important = true` (and the `x` variant one with `important = false`). On
the code, because `peek_next_token` consumes from the token stream, the
colon-presence check of `consume_a_declaration` sees the whitespace after
the colon and both inputs are rejected with no Declaration at all (`none`);
the same happens on the `consume_a_declaration_from_list` path inside a
declaration list, which returns an empty list. -/
theorem C1_important_declaration_never_produced :
    (∃ p1, consume_a_declaration 40 (Parser.new c1_important_tokens) = some (none, p1)) ∧
    (∃ p2, consume_a_declaration 40 (Parser.new c1_importantx_tokens) = some (none, p2)) ∧
    (∃ p3, parse_a_list_of_declarations 60 (Parser.new c1_important_tokens) =
      some ([], p3)) :=
  ⟨⟨_, rfl⟩, ⟨_, rfl⟩, ⟨_, rfl⟩⟩

/-- Token stream of `color: red; 123invalid; display: block;`
(the numeric-start segment is tokenized as a number token followed by an
ident token; any tokenization of it without a top-level `;` gives the same
result). -/
def c2_tokens : List Token :=
  [.Ident "color", .Colon, .Whitespace, .Ident "red", .Semicolon, .Whitespace,
   .Number, .Ident "invalid", .Semicolon, .Whitespace, .Ident "display", .Colon,
   .Whitespace, .Ident "block", .Semicolon]

/-- C2: the claim says `parse_a_list_of_declarations` on
`color: red; 123invalid; display: block;` returns exactly the two
declarations `color` and `display`. On the code it terminates but returns
the empty list: `peek_next_token` consumes every other token while the
`Ident` arm collects the temporary value list, so each declaration's colon
is lost and `consume_a_declaration_from_list`'s colon check rejects it. -/
theorem C2_declaration_list_loses_all_declarations :
    ∃ p1, parse_a_list_of_declarations 60 (Parser.new c2_tokens) = some ([], p1) :=
  ⟨_, rfl⟩

/-- DOM of `<h1><div><button/></div></h1>`: node 0 is the `h1` root, node 1
the wrapper `div` (parent 0), node 2 the `button` (parent 1). -/
def c3_dom : Dom :=
  [⟨some ⟨"h1", "", []⟩, none, none⟩,
   ⟨some ⟨"div", "", []⟩, some 0, none⟩,
   ⟨some ⟨"button", "", []⟩, some 1, none⟩]

/-- The sequence `h1` of the selector `h1 button`. -/
def c3_h1seq : SimpleSelectorSequence := ⟨[⟨.Type, some "h1"⟩]⟩

/-- The subject sequence `button` of the selector `h1 button`. -/
def c3_buttonseq : SimpleSelectorSequence := ⟨[⟨.Type, some "button"⟩]⟩

/-- The selector `h1 button` (descendant combinator). -/
def c3_descSel : Selector := ⟨[(c3_h1seq, some .Descendant), (c3_buttonseq, none)]⟩

/-- The descendant walk at the button of `c3_dom` never terminates: the loop
recomputes the parent of the same node forever because the wrapper `div`
does not satisfy `h1`. -/
theorem descendant_walk_stuck : ∀ fuel, descendant_walk fuel c3_dom 2 c3_h1seq = .fuelOut := by
  intro fuel
  induction fuel with
  | zero => rfl
  | succ n ih =>
    have step : descendant_walk (n + 1) c3_dom 2 c3_h1seq =
        descendant_walk n c3_dom 2 c3_h1seq := rfl
    rw [step]
    exact ih

/-- C3: the claim says evaluating `h1 button` on a button nested under `h1`
through a wrapper element terminates, walks ancestors outward and matches.
On the code the `Descendant` arm's loop never advances the node it takes
the parent of, so when the immediate parent does not satisfy the sequence
the walk re-reads the same parent forever: for every fuel the evaluation is
still running (it never returns a match result). -/
theorem C3_descendant_matching_diverges :
    ∀ fuel, is_match_selector fuel c3_dom 2 c3_descSel = .fuelOut := by
  intro fuel
  have reduce : is_match_selector fuel c3_dom 2 c3_descSel =
      (match descendant_walk fuel c3_dom 2 c3_h1seq with
       | .newCand cand => match_selector_loop fuel c3_dom [] cand
       | .noMatch => .ok false
       | .panic => .panic
       | .fuelOut => .fuelOut) := rfl
  rw [reduce, descendant_walk_stuck fuel]

/-- DOM of a lone `button` element with no parent. -/
def c4_dom : Dom := [⟨some ⟨"button", "", []⟩, none, none⟩]

/-- The selector `h1 > button` (child combinator on the leftmost pair). -/
def c4_childSel : Selector :=
  ⟨[(⟨[⟨.Type, some "h1"⟩]⟩, some .Child), (⟨[⟨.Type, some "button"⟩]⟩, none)]⟩

/-- C4: the claim says a `Child` pair with no parent yields no match in all
positions, including the leftmost pair. On the code, when the candidate has
no parent the `Child` arm skips the sequence check and only sets the
candidate to `None`; if that pair was the leftmost one the loop then ends
and the matcher returns `true`: `h1 > button` matches a parentless
button. -/
theorem C4_child_combinator_without_parent_matches :
    is_match_selector 1 c4_dom 0 c4_childSel = .ok true := rfl

/-- A token stream on which `consume_a_declaration` reaches the
trailing-whitespace strip with the value `[Ident "red", Whitespace]` (the
filler delimiters compensate for the tokens `peek_next_token` consumes). -/
def c5_tokens : List Token :=
  [.Ident "a", .Delim '.', .Colon, .Delim '.', .Delim '.', .Delim '.',
   .Ident "red", .Delim '.', .Whitespace]

/-- C5: the claim says stripping only removes the trailing whitespace and
leaves the other value tokens unaffected. On the code, `last_token` returns
an index counted from the end of the value while `remove` erases at that
index counted from the front: on the pre-strip value
`[Ident "red", Whitespace]` the loop first erases `Ident "red"`, then the
whitespace, returning a declaration with an empty value (second conjunct:
the strip loop in isolation; first conjunct: the end-to-end run). The
returned value indeed never ends in whitespace, but non-trailing tokens are
destroyed. -/
theorem C5_strip_removes_non_trailing_tokens :
    (∃ p1, consume_a_declaration 40 (Parser.new c5_tokens) =
      some (some { name := "a", value := [], important := false }, p1)) ∧
    strip_whitespace_loop
        { name := "a",
          value := [.PerservedToken (.Ident "red"), .PerservedToken .Whitespace],
          important := false } =
      { name := "a", value := [], important := false } :=
  ⟨⟨_, rfl⟩, rfl⟩

/-- C6 counterexample: the claim says a qualified rule cut off by EOF is
still returned and included in the enclosing rule list. On the code,
consuming the rule list of the token stream `div` (EOF before any `{`)
returns the empty list: the partial rule with prelude `div` was discarded. -/
theorem C6_counterexample_unterminated_rule_discarded :
    ∃ p1, consume_a_list_of_rules 40 (Parser.new [Token.Ident "div"]) = some ([], p1) :=
  ⟨_, rfl⟩

theorem qualified_rule_loop_block (fuel : Nat) :
    ∀ p qr r p2, qualified_rule_loop fuel p qr = some (r, p2) →
      r = none ∨ ∃ q, r = some q ∧ q.block.isSome = true := by
  induction fuel with
  | zero =>
    intro p qr r p2 h
    simp [qualified_rule_loop] at h
  | succ n ih =>
    intro p qr r p2 h
    unfold qualified_rule_loop at h
    rcases hct : consume_next_token p with ⟨t, p1⟩
    rw [hct] at h
    cases t
    all_goals
      first
      | -- the EOF arm
        (have h2 : some ((none : Option QualifiedRule), p1) = some (r, p2) := h
         have h3 : (none : Option QualifiedRule) = r ∧ p1 = p2 := by simpa using h2
         exact Or.inl h3.1.symm)
      | -- the BraceOpen arm
        (have h2 : (match consume_a_simple_block n p1 with
                    | none => none
                    | some (b, p) => some (some (qr.set_block b), p)) = some (r, p2) := h
         cases hb : consume_a_simple_block n p1 with
         | none =>
           rw [hb] at h2
           simp at h2
         | some bp =>
           obtain ⟨b, p3⟩ := bp
           rw [hb] at h2
           have h3 : some (qr.set_block b) = r ∧ p3 = p2 := by simpa using h2
           exact Or.inr ⟨qr.set_block b, h3.1.symm, by simp [QualifiedRule.set_block]⟩)
      | -- the prelude arm
        (have h2 : (match consume_a_component_value n (set_reconsume p1) with
                    | none => none
                    | some (v, p) => qualified_rule_loop n p (qr.append_prelude v)) =
                   some (r, p2) := h
         cases hcv : consume_a_component_value n (set_reconsume p1) with
         | none =>
           rw [hcv] at h2
           simp at h2
         | some vp =>
           obtain ⟨v, p3⟩ := vp
           rw [hcv] at h2
           exact ih p3 _ r p2 h2)

/-- C6 amended: when EOF is reached while a qualified rule is being
consumed, the partially built rule is discarded (`consume_a_qualified_rule`
returns nothing and the enclosing list omits it, with only a diagnostic
emitted); a qualified rule is ever returned only once its block has been
consumed. -/
theorem C6_amended_qualified_rule_requires_block :
    ∀ fuel p r p2, consume_a_qualified_rule fuel p = some (r, p2) →
      r = none ∨ ∃ q, r = some q ∧ q.block.isSome = true := by
  intro fuel p r p2 h
  exact qualified_rule_loop_block fuel p QualifiedRule.new r p2 h

/-- Witness for C6 at the token stream `div`. -/
theorem C6_witness :
    (none : Option QualifiedRule) = none ∨
      ∃ q, (none : Option QualifiedRule) = some q ∧ q.block.isSome = true :=
  C6_amended_qualified_rule_requires_block 10 (Parser.new [Token.Ident "div"]) none
    { tokens := ⟨[]⟩, top_level := false, reconsume := false, current_token := some .EOF }
    rfl

/-- Does the rule-matching phase supply an explicit value for the property
(a `Some(Some(v))` entry in the specified-properties map)? -/
def has_explicit_value (props : Properties) (property : Property) : Bool :=
  match Properties.get props property with
  | some (some _) => true
  | _ => false

/-- C7: in `compute_styles`, a property with no explicitly supplied value is
resolved as follows: if it is in the `INHERITABLES` set and the weak parent
reference upgrades, the node receives the parent render node's computed
value for it (`get_style`, which itself recurses upward until an explicit
or initial value is found); if the weak parent reference can no longer be
upgraded, or there is no parent, the lookup falls back to the initial
value; a property outside the `INHERITABLES` set receives its initial value
regardless of the parent. -/
theorem C7_inheritance_and_initial_fallback :
    ∀ (props : Properties) (parent : Option (Option RTNode)) (property : Property),
      has_explicit_value props property = false →
      ((INHERITABLES.contains property = true →
         (∀ q, parent = some (some q) →
            computed_get (compute_styles props parent) property =
              some (get_style q property)) ∧
         (parent = some none →
            computed_get (compute_styles props parent) property =
              some (Value.initial property)) ∧
         (parent = none →
            computed_get (compute_styles props parent) property =
              some (Value.initial property))) ∧
       (INHERITABLES.contains property = false →
          computed_get (compute_styles props parent) property =
            some (Value.initial property))) := by
  intro props parent property hexp
  have hkey : computed_get (compute_styles props parent) property =
      some (specified_value props parent property) := by
    cases property <;> rfl
  rw [hkey]
  unfold specified_value
  cases hpg : Properties.get props property with
  | some ov =>
    cases ov with
    | some v => simp [has_explicit_value, hpg] at hexp
    | none =>
      refine ⟨fun hin => ⟨?_, ?_, ?_⟩, fun hnin => ?_⟩
      all_goals
        first
        | (have hin2 : property ∈ INHERITABLES := by simpa using hin
           intro q hq
           subst hq
           simp [hpg, hin, hin2])
        | (have hin2 : property ∈ INHERITABLES := by simpa using hin
           intro hq
           subst hq
           simp [hpg, hin, hin2])
        | (have hnin2 : property ∉ INHERITABLES := by simpa using hnin
           simp [hpg, hnin, hnin2])
  | none =>
    refine ⟨fun hin => ⟨?_, ?_, ?_⟩, fun hnin => ?_⟩
    all_goals
      first
      | (have hin2 : property ∈ INHERITABLES := by simpa using hin
         intro q hq
         subst hq
         simp [hpg, hin, hin2])
      | (have hin2 : property ∈ INHERITABLES := by simpa using hin
         intro hq
         subst hq
         simp [hpg, hin, hin2])
      | (have hnin2 : property ∉ INHERITABLES := by simpa using hnin
         simp [hpg, hnin, hnin2])

/-- A parent render node with an own computed color entry. -/
def c7_parent : RTNode := .mk [(Property.Color, Value.Color (.RGBA 9 9 9 9))] none

/-- Witness for C7: with no explicit value, a live parent, and the
inheritable `color` property, the computed value is the parent's. -/
theorem C7_witness :
    computed_get (compute_styles [] (some (some c7_parent))) Property.Color =
      some (get_style c7_parent Property.Color) :=
  ((C7_inheritance_and_initial_fallback [] (some (some c7_parent)) Property.Color
    rfl).1 rfl).1 c7_parent rfl

/-- Rules for the C8 example: the `div` resolves to `display: none`, its
child `p` explicitly sets `display: block`, everything else has no
declarations. -/
def c8_rules : DomNode → Properties
  | .element "div" _ => [(Property.Display, some (Value.Display .None))]
  | .element "p" _ => [(Property.Display, some (Value.Display .Block))]
  | _ => []

/-- The C8 example DOM: `<html><div><p/></div></html>`. -/
def c8_dom : DomNode := .element "html" [.element "div" [.element "p" []]]

/-- C8: `build_render_tree` returns nothing for an element whose tag is
`head` (no recursion into its subtree) and for an element whose resolved
display is `none`; in the concrete example the `div` with `display: none`
is pruned, so the resulting tree has no children at all — in particular its
descendant `p` appears nowhere even though `p` itself sets
`display: block`. -/
theorem C8_head_and_display_none_pruning :
    (∀ (A : DomNode → Properties) (children : List DomNode)
       (parent : Option (Option RTNode)),
       build_render_tree A (.element "head" children) parent = none) ∧
    (∀ (A : DomNode → Properties) (tag : String) (children : List DomNode)
       (parent : Option (Option RTNode)),
       Properties.get (A (.element tag children)) .Display =
         some (some (.Display .None)) →
       build_render_tree A (.element tag children) parent = none) ∧
    build_render_tree c8_rules c8_dom none =
      some (.mk c8_dom (compute_styles [] none) []) := by
  refine ⟨?_, ?_, ?_⟩
  · intro A children parent
    rw [build_render_tree]
    simp [DomNode.is_head]
  · intro A tag children parent h
    rw [build_render_tree]
    by_cases ht : (DomNode.element tag children).is_head
    · simp [ht]
    · simp [ht, DomNode.is_text, h]
  · rw [build_render_tree]
    simp [c8_dom, DomNode.is_head, DomNode.is_text, DomNode.child_nodes, c8_rules,
          Properties.get, build_render_children, build_render_tree]

/-- Witness for C8: the `display: none` div of the example is pruned. -/
theorem C8_witness :
    build_render_tree c8_rules (DomNode.element "div" [DomNode.element "p" []]) none = none :=
  C8_head_and_display_none_pruning.2.1 c8_rules "div" [DomNode.element "p" []] none rfl

theorem comma_loop_count (fuel : Nat) :
    ∀ p values return_values r p2,
      comma_loop fuel p values return_values = some (r, p2) →
      ∃ n, comma_count fuel p = some (n, p2) ∧
        r.length = return_values.length + 1 + n := by
  induction fuel with
  | zero =>
    intro p values rv r p2 h
    simp [comma_loop] at h
  | succ m ih =>
    intro p values rv r p2 h
    unfold comma_loop at h
    unfold comma_count
    cases hc : consume_a_component_value m p with
    | none =>
      rw [hc] at h
      simp at h
    | some vp =>
      obtain ⟨value, p1⟩ := vp
      rw [hc] at h
      rcases value with t | f | b
      · cases t
        all_goals
          first
          | -- the EOF arm
            (have h2 : some (rv ++ [values], p1) = some (r, p2) := h
             have h3 : rv ++ [values] = r ∧ p1 = p2 := by simpa using h2
             obtain ⟨hr, hp⟩ := h3
             subst hr
             subst hp
             exact ⟨0, rfl, by simp⟩)
          | -- the Comma arm
            (have h2 : comma_loop m p1 [] (rv ++ [values]) = some (r, p2) := h
             obtain ⟨n, hcc, hlen⟩ := ih p1 [] (rv ++ [values]) r p2 h2
             refine ⟨n + 1, ?_, ?_⟩
             · show (match comma_count m p1 with
                     | none => none
                     | some (n, p) => some (n + 1, p)) = some (n + 1, p2)
               rw [hcc]
             · simp only [List.length_append, List.length_cons, List.length_nil] at hlen
               omega)
          | -- the catch-all arm
            (obtain ⟨n, hcc, hlen⟩ := ih p1 _ rv r p2 h
             exact ⟨n, hcc, hlen⟩)
      · obtain ⟨n, hcc, hlen⟩ := ih p1 _ rv r p2 h
        exact ⟨n, hcc, hlen⟩
      · obtain ⟨n, hcc, hlen⟩ := ih p1 _ rv r p2 h
        exact ⟨n, hcc, hlen⟩

/-- C9: whenever `parse_a_comma_separated_list_of_component_values`
terminates, the returned list of groups is non-empty and has exactly one
more group than the number of top-level comma tokens delivered before EOF;
on the EOF-only input it returns the one-element list holding the empty
group (see the witness). -/
theorem C9_one_group_per_top_level_comma_plus_one :
    ∀ fuel p r p2,
      parse_a_comma_separated_list_of_component_values fuel p = some (r, p2) →
      r ≠ [] ∧ ∃ n, comma_count fuel p = some (n, p2) ∧ r.length = 1 + n := by
  intro fuel p r p2 h
  obtain ⟨n, hcc, hlen⟩ := comma_loop_count fuel p [] [] r p2 h
  have hlen2 : r.length = 1 + n := by simpa using hlen
  refine ⟨?_, n, hcc, hlen2⟩
  intro hr
  subst hr
  simp only [List.length_nil] at hlen2
  omega

/-- The parser state after consuming the lone EOF of the empty stream. -/
def c9_end_state : Parser :=
  { tokens := ⟨[]⟩, top_level := false, reconsume := false, current_token := some .EOF }

/-- Witness for C9 at the EOF-only input: exactly one group, the empty one. -/
theorem C9_witness :
    ([[]] : List (List ComponentValue)) ≠ [] ∧
      ∃ n, comma_count 2 (Parser.new []) = some (n, c9_end_state) ∧
        ([[]] : List (List ComponentValue)).length = 1 + n :=
  C9_one_group_per_top_level_comma_plus_one 2 (Parser.new []) [[]] c9_end_state rfl

/-- C10: for every DOM text node, under any rule set, `build_render_tree`
returns a render node: the specified map is empty (so the display filter
cannot fire) and a text node has no element view (so the head filter cannot
fire); its computed properties are those of the empty specified map. -/
theorem C10_text_node_never_pruned :
    ∀ (A : DomNode → Properties) (s : String) (parent : Option (Option RTNode)),
      build_render_tree A (.text s) parent =
        some (.mk (.text s) (compute_styles [] parent) []) := by
  intro A s parent
  rw [build_render_tree]
  simp [DomNode.is_text, DomNode.is_head, DomNode.child_nodes, build_render_children,
        Properties.get]
